import Mathlib

/-!
Verification of the dual-mode rate limiter of split-stream-image-cropper
(`api/rateLimiter.js`, dual-namespace version).

The JavaScript source is shallowly embedded: millisecond timestamps are `Int`
(`Date.now()`), JS strings are `String`, the in-memory `Map` is a function
`String → Option Entry`, the Redis counter store is a pair of functions for
counts and TTLs, and JS exceptions are `Except String`.  Each definition below
mirrors one function or constant of the source file.
-/

namespace SplitStream

/-- One hour in milliseconds — the constant `RATE_LIMIT_WINDOW` of the source. -/
def RATE_LIMIT_WINDOW : Int := 60 * 60 * 1000

/-! ### JS string primitives used by the source

`String.split(',')`, `String.trim()` and `parseInt(s, 10)` are modelled as
structurally recursive functions on the character list of the string, so that
every concrete instance evaluates by `decide`. -/

/-- Whitespace as trimmed by `String.prototype.trim` (ASCII fragment). -/
def jsIsWhitespace (c : Char) : Bool :=
  c = ' ' || c = '\t' || c = '\n' || c = '\r'

/-- Model of `s.trim()`: drop whitespace from both ends. -/
def jsTrim (s : String) : String :=
  String.mk ((((s.data.dropWhile jsIsWhitespace).reverse).dropWhile jsIsWhitespace).reverse)

/-- Split a character list at commas; never returns the empty list,
matching `"".split(',') === [""]` in JS. -/
def splitCommaAux : List Char → List Char → List (List Char)
  | [], acc => [acc.reverse]
  | c :: rest, acc =>
      if c = ',' then acc.reverse :: splitCommaAux rest []
      else splitCommaAux rest (c :: acc)

/-- Model of `s.split(',')`. -/
def jsSplitComma (s : String) : List String :=
  (splitCommaAux s.data []).map String.mk

/-- The leftmost comma-separated field of a string, written independently of
the `split` model: everything strictly before the first comma.  Used to state
what "the leftmost entry" means when checking `extractClientIP`. -/
def firstCommaField (s : String) : String :=
  String.mk (s.data.takeWhile (fun c => c ≠ ','))

/-- Leading decimal digits of a character list. -/
def digitsChunk : List Char → List Char
  | [] => []
  | c :: rest => if c.isDigit then c :: digitsChunk rest else []

/-- Numeric value of a digit list. -/
def digitsVal (l : List Char) : Nat :=
  l.foldl (fun a c => a * 10 + (c.toNat - 48)) 0

/-- Model of `parseInt(s, 10)`: skip whitespace, optional sign, then the maximal
digit run; `none` models `NaN` (no digits at all). -/
def jsParseInt (s : String) : Option Int :=
  match s.data.dropWhile jsIsWhitespace with
  | '-' :: rest =>
      match digitsChunk rest with
      | [] => none
      | d => some (-(digitsVal d : Int))
  | '+' :: rest =>
      match digitsChunk rest with
      | [] => none
      | d => some (digitsVal d : Int)
  | cs =>
      match digitsChunk cs with
      | [] => none
      | d => some (digitsVal d : Int)

/-- Model of `parseInt(envVar, 10) || dflt`: `NaN` (here `none`) and `0` are
falsy and select the default; every other integer — negative ones included —
is truthy and is used as is. -/
def parseIntOrDefault (envVal : Option String) (dflt : Int) : Int :=
  match envVal with
  | none => dflt
  | some s =>
      match jsParseInt s with
      | none => dflt
      | some n => if n = 0 then dflt else n

/-- The two environment variables read by the module at load time. -/
structure Env where
  RATE_LIMIT_PER_HOUR : Option String
  HEALTH_CHECK_RATE_LIMIT_PER_HOUR : Option String

/-- `PROCESSING_RATE_LIMIT_MAX_REQUESTS = parseInt(process.env.RATE_LIMIT_PER_HOUR, 10) || 10`. -/
def PROCESSING_RATE_LIMIT_MAX_REQUESTS (env : Env) : Int :=
  parseIntOrDefault env.RATE_LIMIT_PER_HOUR 10

/-- `HEALTH_CHECK_RATE_LIMIT_MAX_REQUESTS = parseInt(process.env.HEALTH_CHECK_RATE_LIMIT_PER_HOUR, 10) || 100`. -/
def HEALTH_CHECK_RATE_LIMIT_MAX_REQUESTS (env : Env) : Int :=
  parseIntOrDefault env.HEALTH_CHECK_RATE_LIMIT_PER_HOUR 100

/-- The environment with neither limit variable set: both defaults apply. -/
def defaultEnv : Env := ⟨none, none⟩

/-- The `limiterType === 'health' ? HEALTH_… : PROCESSING_…` selection that each
check function performs. -/
def maxRequestsFor (env : Env) (limiterType : String) : Int :=
  if limiterType = "health" then HEALTH_CHECK_RATE_LIMIT_MAX_REQUESTS env
  else PROCESSING_RATE_LIMIT_MAX_REQUESTS env

/-! ### Client identity resolution (`extractClientIP`, `sanitizeIP`) -/

/-- The `req.connection` object, as far as the source reads it. -/
structure Connection where
  remoteAddress : Option String

/-- The request fields read by `extractClientIP`: the `x-forwarded-for`
header, `req.ip`, and `req.connection?.remoteAddress`.  `none` models a JS
`undefined` field. -/
structure Request where
  xForwardedFor : Option String
  ip : Option String
  connection : Option Connection

/-- JS `x || y` for a possibly-undefined string `x`: `undefined` (`none`) and
the empty string are falsy and select `y`. -/
def jsOrElse (a : Option String) (b : String) : String :=
  match a with
  | some s => if s ≠ "" then s else b
  | none => b

/-- `req.ip || req.connection?.remoteAddress || 'unknown'`; the optional
chaining `req.connection?.remoteAddress` is `Option.bind`. -/
def fallbackAddress (req : Request) : String :=
  jsOrElse req.ip (jsOrElse (req.connection.bind Connection.remoteAddress) "unknown")

/-- `extractClientIP(req)`: if the `x-forwarded-for` header is truthy, return
`header.split(',')[0].trim()`; otherwise the fallback chain. -/
def extractClientIP (req : Request) : String :=
  match req.xForwardedFor with
  | some h => if h ≠ "" then jsTrim ((jsSplitComma h).headD "") else fallbackAddress req
  | none => fallbackAddress req

/-- `sanitizeIP(ip)`: replace every `:` and `.` by `-`. -/
def sanitizeIP (ip : String) : String :=
  String.mk (ip.data.map (fun c => if c = ':' ∨ c = '.' then '-' else c))

/-! ### The in-memory backend (`checkInMemoryRateLimit`) -/

/-- One value of `inMemoryRateLimitMap`: `{ count, resetTime }`. -/
structure Entry where
  count : Int
  resetTime : Int
deriving DecidableEq

/-- The `inMemoryRateLimitMap`, as a function from keys to optional entries. -/
def MemMap := String → Option Entry

/-- The empty map. -/
def emptyMem : MemMap := fun _ => none

/-- `map.set(k, e)`. -/
def updateMem (m : MemMap) (k : String) (e : Entry) : MemMap :=
  fun k2 => if k2 = k then some e else m k2

/-- The key built by `checkInMemoryRateLimit`:
`` `ratelimit:${limiterType}:${clientIP}` ``. -/
def limiterKeyMem (limiterType clientIP : String) : String :=
  "ratelimit:" ++ limiterType ++ ":" ++ clientIP

/-- The object a check function returns.  `retryAfter = none` models the JS
object without a `retryAfter` property (the allowed case). -/
structure RateLimitResult where
  allowed : Bool
  remaining : Int
  resetTime : Int
  retryAfter : Option Int
deriving DecidableEq

/-- `Math.ceil(x / 1000)` for an integer number of milliseconds
(exact: `ceil(x/1000) = -floor(-x/1000)`). -/
def ceilDiv1000 (x : Int) : Int := -(Int.fdiv (-x) 1000)

/-- `checkInMemoryRateLimit(clientIP, limiterType)`, with the ambient state
(`Date.now()` and the map) passed explicitly.  Returns the result object and
the map after the call. -/
def checkInMemoryRateLimit (env : Env) (now : Int) (m : MemMap)
    (clientIP limiterType : String) : RateLimitResult × MemMap :=
  let maxRequests := maxRequestsFor env limiterType
  let limiterKey := limiterKeyMem limiterType clientIP
  match m limiterKey with
  | none =>
      (⟨true, maxRequests - 1, now + RATE_LIMIT_WINDOW, none⟩,
       updateMem m limiterKey ⟨1, now + RATE_LIMIT_WINDOW⟩)
  | some limiter =>
      if now > limiter.resetTime then
        -- window has expired: overwrite with a fresh entry
        (⟨true, maxRequests - 1, now + RATE_LIMIT_WINDOW, none⟩,
         updateMem m limiterKey ⟨1, now + RATE_LIMIT_WINDOW⟩)
      else if limiter.count ≥ maxRequests then
        (⟨false, 0, limiter.resetTime, some (ceilDiv1000 (limiter.resetTime - now))⟩, m)
      else
        (⟨true, maxRequests - (limiter.count + 1), limiter.resetTime, none⟩,
         updateMem m limiterKey ⟨limiter.count + 1, limiter.resetTime⟩)

/-! ### The Redis backend (`checkRedisRateLimit`, success path)

The external store is a pair of total maps: a counter per key (absent keys
count 0, as `INCR` treats them) and an optional TTL per key.  The `try` body
of `checkRedisRateLimit` is embedded here; the `catch` fallback is part of the
process-level step function further down. -/

/-- The Redis counter store. -/
structure RedisState where
  counts : String → Int
  ttl : String → Option Int

/-- The store with no keys. -/
def emptyRedis : RedisState := ⟨fun _ => 0, fun _ => none⟩

/-- The key built by `checkRedisRateLimit`:
`` `ratelimit:${limiterType}:${sanitizedIP}` ``. -/
def redisKeyFor (limiterType clientIP : String) : String :=
  "ratelimit:" ++ limiterType ++ ":" ++ sanitizeIP clientIP

/-- The `try` body of `checkRedisRateLimit(clientIP, limiterType)`:
`INCR` the key, set a 3600 s TTL when the increment created it, and build the
result from the returned count. -/
def checkRedisRateLimit (env : Env) (now : Int) (st : RedisState)
    (clientIP limiterType : String) : RateLimitResult × RedisState :=
  let maxRequests := maxRequestsFor env limiterType
  let redisKey := redisKeyFor limiterType clientIP
  let count := st.counts redisKey + 1
  let counts2 : String → Int := fun k => if k = redisKey then count else st.counts k
  let ttl2 : String → Option Int :=
    if count = 1 then fun k => if k = redisKey then some 3600 else st.ttl k else st.ttl
  let st2 : RedisState := ⟨counts2, ttl2⟩
  let remaining := max 0 (maxRequests - count)
  let resetTime := now + RATE_LIMIT_WINDOW
  if count > maxRequests then
    (⟨false, 0, resetTime, some (60 - Int.fdiv (now % 60000) 1000)⟩, st2)
  else
    (⟨true, remaining, resetTime, none⟩, st2)

/-! ### The middleware (`createRateLimiter`)

The per-request handler wraps identity extraction, the backend call and the
decision in one `try`; on `!result.allowed` it answers 429 with a
`Retry-After` header, otherwise it calls `next()`.  The `catch` block sets
only the limit header and calls `next()`. -/

/-- The response headers the middleware sets (`none` = header not set). -/
structure Headers where
  limit : Option Int
  remaining : Option Int
  reset : Option Int
  retryAfter : Option Int
deriving DecidableEq

/-- Observable outcome of one middleware invocation. -/
inductive GateResponse where
  | nextCalled (hdrs : Headers)
  | status429 (hdrs : Headers) (bodyRetryAfter : Int)
deriving DecidableEq

/-- The branch of the handler that turns a check result into a response:
lines 202–214 of the source. -/
def respondWith (maxRequests : Int) (r : RateLimitResult) : GateResponse :=
  let base : Headers :=
    ⟨some maxRequests, some (max 0 r.remaining), some (Int.fdiv r.resetTime 1000), none⟩
  if r.allowed then
    .nextCalled base
  else
    .status429 { base with retryAfter := r.retryAfter } (r.retryAfter.getD 0)

/-- The whole handler body, generic in the two steps that can throw
(identity extraction and the backend check), so that the `try/catch` structure
is explicit: any thrown error is caught, the limit header is set, and
`next()` is called. -/
def runMiddleware (env : Env) (limiterType : String)
    (identify : Except String String)
    (check : String → Except String RateLimitResult) : GateResponse :=
  let maxRequests := maxRequestsFor env limiterType
  match identify with
  | .error _ => .nextCalled ⟨some maxRequests, none, none, none⟩
  | .ok ip =>
      match check ip with
      | .error _ => .nextCalled ⟨some maxRequests, none, none, none⟩
      | .ok r => respondWith maxRequests r

/-- Just the status decision of `respondWith`: `none` means the request was
forwarded, `some 429` that it was rejected. -/
def gateStatusOf (r : RateLimitResult) : Option Nat :=
  if r.allowed then none else some 429

/-! ### Process-wide state and the Redis error fallback

`useRedis`, `redisClient` and `rateLimiterInitialized` are module-level
mutable variables; together with the two stores they form the process state.
`checkRedisRateLimit`'s `catch` flips `useRedis` to `false` and re-runs the
same request against the in-memory store. -/

/-- The module-level mutable state of `rateLimiter.js`. -/
structure ProcState where
  useRedis : Bool
  redisClientSome : Bool
  rateLimiterInitialized : Bool
  mem : MemMap
  redis : RedisState

/-- `checkRedisRateLimit` including its `catch`: when the Redis call throws
(`fails = true`), set `useRedis = false` and fall back to
`checkInMemoryRateLimit` for the same request. -/
def checkRedisRateLimitF (env : Env) (now : Int) (st : ProcState)
    (clientIP limiterType : String) (fails : Bool) : RateLimitResult × ProcState :=
  if fails then
    let p := checkInMemoryRateLimit env now st.mem clientIP limiterType
    (p.1, { st with useRedis := false, mem := p.2 })
  else
    let p := checkRedisRateLimit env now st.redis clientIP limiterType
    (p.1, { st with redis := p.2 })

/-- `initializeRedis()`: a no-op once `rateLimiterInitialized` is set;
otherwise it marks the limiter initialized and, when both Upstash variables
are present, builds a client and pings it, setting `useRedis` only on a
successful ping (`pingOk`). -/
def initRedisOnce (credsPresent pingOk : Bool) (st : ProcState) : ProcState :=
  if st.rateLimiterInitialized then st
  else if credsPresent then
    { st with rateLimiterInitialized := true, redisClientSome := true, useRedis := pingOk }
  else
    { st with rateLimiterInitialized := true }

/-- One request through the backend-selection core of the middleware
(lines 186–197): lazy initialization, then the `useRedis && redisClient`
dispatch.  `fails` tells whether a Redis call made by this request throws. -/
def rateLimitStep (env : Env) (now : Int) (clientIP limiterType : String)
    (credsPresent pingOk fails : Bool) (st : ProcState) : RateLimitResult × ProcState :=
  let st1 := if st.rateLimiterInitialized then st else initRedisOnce credsPresent pingOk st
  if st1.useRedis && st1.redisClientSome then
    checkRedisRateLimitF env now st1 clientIP limiterType fails
  else
    let p := checkInMemoryRateLimit env now st1.mem clientIP limiterType
    (p.1, { st1 with mem := p.2 })

/-! ### Request bursts -/

/-- Run one in-memory check per timestamp in the list, threading the map. -/
def memBurst (env : Env) (limiterType clientIP : String) :
    MemMap → List Int → List RateLimitResult × MemMap
  | m, [] => ([], m)
  | m, t :: ts =>
      let p := checkInMemoryRateLimit env t m clientIP limiterType
      let q := memBurst env limiterType clientIP p.2 ts
      (p.1 :: q.1, q.2)

/-- Run one Redis (success-path) check per timestamp, threading the store. -/
def redisBurst (env : Env) (limiterType clientIP : String) :
    RedisState → List Int → List RateLimitResult × RedisState
  | st, [] => ([], st)
  | st, t :: ts =>
      let p := checkRedisRateLimit env t st clientIP limiterType
      let q := redisBurst env limiterType clientIP p.2 ts
      (p.1 :: q.1, q.2)

/-- Run one full middleware step per timestamp, threading the process state;
every Redis call in the burst throws (`fails = true` throughout), which is the
failing-backend scenario of the spec. -/
def gateBurstAllFail (env : Env) (limiterType clientIP : String)
    (credsPresent pingOk : Bool) :
    ProcState → List Int → List RateLimitResult × ProcState
  | st, [] => ([], st)
  | st, t :: ts =>
      let p := rateLimitStep env t clientIP limiterType credsPresent pingOk true st
      let q := gateBurstAllFail env limiterType clientIP credsPresent pingOk p.2 ts
      (p.1 :: q.1, q.2)

/-- Number of allowed results in a burst. -/
def countAllowed (rs : List RateLimitResult) : Nat :=
  (rs.filter (fun r => r.allowed)).length

/-- An interleaving of concurrent same-identity requests against the local
backend.  Under the JS event loop `checkInMemoryRateLimit` is synchronous (it
contains no `await`), so each in-flight request performs its read-modify-write
of the map as one uninterruptible step; a concurrent execution of `n` requests
is therefore a sequence of `n` whole calls in some order.  The schedule tags
which request context acts at each step (the tag cannot influence the store —
that it cannot is what the no-lost-update theorem states). -/
def interleavedMemRun (env : Env) (ns ip : String) (now : Int) (m : MemMap)
    (schedule : List Nat) : MemMap :=
  (memBurst env ns ip m (schedule.map (fun _ => now))).2

/-! ### `getRateLimitStatus`

The dual-namespace module renamed its limit constants but this function still
reads the old identifier `RATE_LIMIT_MAX_REQUESTS`, which is bound nowhere in
the file; in JS, evaluating it throws a `ReferenceError`.  The embedding
represents that evaluation as an always-failing `Except`. -/

/-- The possible shapes of the object `getRateLimitStatus` builds. -/
inductive StatusValue where
  | redisStatus (ip : String) (count : Int) (limit : Int)
  | memoryStatus (ip : String) (count : Int) (limit : Int) (resetTime : Option Int)
  | errorObj (msg : String)
deriving DecidableEq

/-- Evaluating the identifier `RATE_LIMIT_MAX_REQUESTS`, which the module does
not define: a `ReferenceError`. -/
def RATE_LIMIT_MAX_REQUESTS_ref : Except String Int :=
  .error "RATE_LIMIT_MAX_REQUESTS is not defined"

/-- `getRateLimitStatus(clientIP)`.  `redisGet` is `redisClient.get`, keyed as
in the source (note: the pre-rename single-namespace key); it may itself
throw.  The Redis branch runs inside `try/catch` and converts any thrown
error into an `{ error }` object; the in-memory branch has no `try` and lets
the `ReferenceError` escape to the caller. -/
def getRateLimitStatus (useRedis redisClientSome : Bool)
    (redisGet : String → Except String (Option Int)) (mem : MemMap)
    (clientIP : String) : Except String StatusValue :=
  if useRedis && redisClientSome then
    -- the try/catch around the whole Redis branch
    match redisGet ("ratelimit:" ++ sanitizeIP clientIP) with
    | .error msg => .ok (.errorObj msg)
    | .ok raw =>
        match RATE_LIMIT_MAX_REQUESTS_ref with
        | .error msg => .ok (.errorObj msg)
        | .ok lim => .ok (.redisStatus clientIP (raw.getD 0) lim)
  else
    -- no try/catch: the ReferenceError escapes to the caller
    let limiter := mem ("ratelimit:" ++ clientIP)
    match RATE_LIMIT_MAX_REQUESTS_ref with
    | .error msg => .error msg
    | .ok lim => .ok (.memoryStatus clientIP
        ((limiter.map Entry.count).getD 0) lim (limiter.map Entry.resetTime))

/-! ## Helper lemmas -/

theorem checkInMemory_fresh (env : Env) (now : Int) (m : MemMap) (ip ns : String)
    (h : m (limiterKeyMem ns ip) = none) :
    checkInMemoryRateLimit env now m ip ns =
      (⟨true, maxRequestsFor env ns - 1, now + RATE_LIMIT_WINDOW, none⟩,
       updateMem m (limiterKeyMem ns ip) ⟨1, now + RATE_LIMIT_WINDOW⟩) := by
  simp only [checkInMemoryRateLimit, h]

theorem checkInMemory_expired (env : Env) (now : Int) (m : MemMap) (ip ns : String)
    (c R : Int) (h : m (limiterKeyMem ns ip) = some ⟨c, R⟩) (hR : R < now) :
    checkInMemoryRateLimit env now m ip ns =
      (⟨true, maxRequestsFor env ns - 1, now + RATE_LIMIT_WINDOW, none⟩,
       updateMem m (limiterKeyMem ns ip) ⟨1, now + RATE_LIMIT_WINDOW⟩) := by
  simp only [checkInMemoryRateLimit, h]
  rw [if_pos hR]

theorem checkInMemory_denied (env : Env) (now : Int) (m : MemMap) (ip ns : String)
    (c R : Int) (h : m (limiterKeyMem ns ip) = some ⟨c, R⟩) (hR : now ≤ R)
    (hc : maxRequestsFor env ns ≤ c) :
    checkInMemoryRateLimit env now m ip ns =
      (⟨false, 0, R, some (ceilDiv1000 (R - now))⟩, m) := by
  simp only [checkInMemoryRateLimit, h]
  rw [if_neg (by omega), if_pos (by omega)]

theorem checkInMemory_incr (env : Env) (now : Int) (m : MemMap) (ip ns : String)
    (c R : Int) (h : m (limiterKeyMem ns ip) = some ⟨c, R⟩) (hR : now ≤ R)
    (hc : c < maxRequestsFor env ns) :
    checkInMemoryRateLimit env now m ip ns =
      (⟨true, maxRequestsFor env ns - (c + 1), R, none⟩,
       updateMem m (limiterKeyMem ns ip) ⟨c + 1, R⟩) := by
  simp only [checkInMemoryRateLimit, h]
  rw [if_neg (by omega), if_neg (by omega)]

theorem updateMem_same (m : MemMap) (k : String) (e : Entry) :
    updateMem m k e k = some e := by
  simp [updateMem]

theorem updateMem_other (m : MemMap) (k k2 : String) (e : Entry) (h : k2 ≠ k) :
    updateMem m k e k2 = m k2 := by
  simp [updateMem, h]

/-- In-memory burst from an in-window entry with count `c`: the i-th request
is allowed exactly while `c + i` is below the limit, and the stored count ends
at `min (c + n) limit` with the reset time unchanged. -/
theorem memBurst_pattern (env : Env) (ns ip : String) (R : Int) (ts : List Int) :
    ∀ (m : MemMap) (c : Int), 1 ≤ c → c ≤ maxRequestsFor env ns →
    m (limiterKeyMem ns ip) = some ⟨c, R⟩ →
    (∀ t ∈ ts, t ≤ R) →
    ((memBurst env ns ip m ts).1.map (fun r => r.allowed)
        = (List.range ts.length).map
            (fun i : Nat => decide (c + (i : Int) < maxRequestsFor env ns)))
    ∧ (memBurst env ns ip m ts).2 (limiterKeyMem ns ip)
        = some ⟨min (c + (ts.length : Int)) (maxRequestsFor env ns), R⟩ := by
  induction ts with
  | nil =>
    intro m c h1 hcL h _
    refine ⟨by simp [memBurst], ?_⟩
    simp only [memBurst, List.length_nil, Nat.cast_zero, add_zero]
    rw [h, min_eq_left hcL]
  | cons t ts ih =>
    intro m c h1 hcL h hts
    have ht : t ≤ R := hts t (by simp)
    have hts2 : ∀ t2 ∈ ts, t2 ≤ R := fun t2 h2 => hts t2 (by simp [h2])
    by_cases hc : c < maxRequestsFor env ns
    · -- below the limit: this request increments the counter and is allowed
      simp only [memBurst]
      rw [checkInMemory_incr env t m ip ns c R h ht hc]
      have hkey := updateMem_same m (limiterKeyMem ns ip) ⟨c + 1, R⟩
      obtain ⟨ihmap, ihfin⟩ :=
        ih (updateMem m (limiterKeyMem ns ip) ⟨c + 1, R⟩) (c + 1)
          (by omega) (by omega) hkey hts2
      constructor
      · simp only [List.map_cons, ihmap, List.length_cons, List.range_succ_eq_map,
          List.map_map, List.cons_eq_cons]
        refine ⟨by rw [eq_comm, decide_eq_true_eq]; push_cast; omega,
          List.map_congr_left fun i _ => ?_⟩
        simp only [Function.comp]
        rw [decide_eq_decide]
        push_cast
        omega
      · rw [ihfin]
        simp only [Option.some.injEq, Entry.mk.injEq, List.length_cons]
        push_cast
        refine ⟨by omega, trivial⟩
    · -- at the limit: this request is denied and the map is unchanged
      simp only [memBurst]
      rw [checkInMemory_denied env t m ip ns c R h ht (by omega)]
      obtain ⟨ihmap, ihfin⟩ := ih m c h1 hcL h hts2
      constructor
      · simp only [List.map_cons, ihmap, List.length_cons, List.range_succ_eq_map,
          List.map_map, List.cons_eq_cons]
        refine ⟨by rw [eq_comm, decide_eq_false_iff_not]; push_cast; omega,
          List.map_congr_left fun i _ => ?_⟩
        simp only [Function.comp]
        rw [decide_eq_decide]
        push_cast
        omega
      · rw [ihfin]
        simp only [Option.some.injEq, Entry.mk.injEq, List.length_cons]
        push_cast
        refine ⟨by omega, trivial⟩

/-- In-memory burst starting from an absent or expired entry: the first
request creates `{count: 1, resetTime: t1 + window}`, and the i-th request of
the burst is allowed exactly while `i < limit` (0-based). -/
theorem memBurst_fresh (env : Env) (ns ip : String) (m : MemMap) (t1 : Int) (ts : List Int)
    (hfresh : m (limiterKeyMem ns ip) = none ∨
      ∃ e, m (limiterKeyMem ns ip) = some e ∧ e.resetTime < t1)
    (hts : ∀ t ∈ ts, t ≤ t1 + RATE_LIMIT_WINDOW)
    (hL : 1 ≤ maxRequestsFor env ns) :
    ((memBurst env ns ip m (t1 :: ts)).1.map (fun r => r.allowed)
        = (List.range (ts.length + 1)).map
            (fun i : Nat => decide ((i : Int) < maxRequestsFor env ns)))
    ∧ (memBurst env ns ip m (t1 :: ts)).2 (limiterKeyMem ns ip)
        = some ⟨min (1 + (ts.length : Int)) (maxRequestsFor env ns),
                t1 + RATE_LIMIT_WINDOW⟩ := by
  have hstep : checkInMemoryRateLimit env t1 m ip ns =
      (⟨true, maxRequestsFor env ns - 1, t1 + RATE_LIMIT_WINDOW, none⟩,
       updateMem m (limiterKeyMem ns ip) ⟨1, t1 + RATE_LIMIT_WINDOW⟩) := by
    rcases hfresh with h | ⟨e, h, he⟩
    · exact checkInMemory_fresh env t1 m ip ns h
    · exact checkInMemory_expired env t1 m ip ns e.count e.resetTime (by rw [h]) he
  obtain ⟨ihmap, ihfin⟩ :=
    memBurst_pattern env ns ip (t1 + RATE_LIMIT_WINDOW) ts
      (updateMem m (limiterKeyMem ns ip) ⟨1, t1 + RATE_LIMIT_WINDOW⟩) 1 le_rfl hL
      (updateMem_same m (limiterKeyMem ns ip) ⟨1, t1 + RATE_LIMIT_WINDOW⟩) hts
  constructor
  · simp only [memBurst]
    rw [hstep]
    simp only [List.map_cons, ihmap, List.range_succ_eq_map, List.map_map,
      List.cons_eq_cons]
    refine ⟨by rw [eq_comm, decide_eq_true_eq]; push_cast; omega,
      List.map_congr_left fun i _ => ?_⟩
    simp only [Function.comp]
    rw [decide_eq_decide]
    push_cast
    omega
  · simp only [memBurst]
    rw [hstep]
    exact ihfin

/-- One successful Redis check: the incremented count decides the outcome. -/
theorem checkRedis_allowed (env : Env) (now : Int) (st : RedisState) (ip ns : String) :
    (checkRedisRateLimit env now st ip ns).1.allowed
        = decide (st.counts (redisKeyFor ns ip) + 1 ≤ maxRequestsFor env ns) := by
  by_cases h : st.counts (redisKeyFor ns ip) + 1 > maxRequestsFor env ns
  · simp only [checkRedisRateLimit, if_pos h]
    rw [eq_comm, decide_eq_false_iff_not]
    omega
  · simp only [checkRedisRateLimit, if_neg h]
    rw [eq_comm, decide_eq_true_eq]
    omega

/-- The reset time a Redis check reports is always `now + window`. -/
theorem checkRedis_resetTime (env : Env) (now : Int) (st : RedisState) (ip ns : String) :
    (checkRedisRateLimit env now st ip ns).1.resetTime = now + RATE_LIMIT_WINDOW := by
  by_cases h : st.counts (redisKeyFor ns ip) + 1 > maxRequestsFor env ns
  · simp only [checkRedisRateLimit, if_pos h]
  · simp only [checkRedisRateLimit, if_neg h]

/-- The retry hint a Redis check reports: present exactly on denial, and equal
to the seconds left until the next minute boundary of the clock. -/
theorem checkRedis_retryAfter (env : Env) (now : Int) (st : RedisState) (ip ns : String) :
    (checkRedisRateLimit env now st ip ns).1.retryAfter
        = (if maxRequestsFor env ns < st.counts (redisKeyFor ns ip) + 1
           then some (60 - Int.fdiv (now % 60000) 1000) else none) := by
  by_cases h : st.counts (redisKeyFor ns ip) + 1 > maxRequestsFor env ns
  · simp only [checkRedisRateLimit, if_pos h]
  · simp only [checkRedisRateLimit, if_neg h]

/-- A Redis check increments exactly its own counter. -/
theorem checkRedis_counts_self (env : Env) (now : Int) (st : RedisState) (ip ns : String) :
    (checkRedisRateLimit env now st ip ns).2.counts (redisKeyFor ns ip)
        = st.counts (redisKeyFor ns ip) + 1 := by
  by_cases h : st.counts (redisKeyFor ns ip) + 1 > maxRequestsFor env ns
  · simp only [checkRedisRateLimit, if_pos h]
    simp only [if_true, eq_self_iff_true]
  · simp only [checkRedisRateLimit, if_neg h]
    simp only [if_true, eq_self_iff_true]

/-- A Redis check touches no counter and no TTL other than its own key's. -/
theorem checkRedis_frame (env : Env) (now : Int) (st : RedisState) (ip ns : String)
    (k : String) (hk : k ≠ redisKeyFor ns ip) :
    (checkRedisRateLimit env now st ip ns).2.counts k = st.counts k
    ∧ (checkRedisRateLimit env now st ip ns).2.ttl k = st.ttl k := by
  by_cases h : st.counts (redisKeyFor ns ip) + 1 > maxRequestsFor env ns
  · simp only [checkRedisRateLimit, if_pos h]
    constructor
    · simp [hk]
    · split
      · simp [hk]
      · rfl
  · simp only [checkRedisRateLimit, if_neg h]
    constructor
    · simp [hk]
    · split
      · simp [hk]
      · rfl

/-- Redis burst from a count of `k`: the i-th request is allowed exactly while
`k + i` is below the limit, and the counter ends at `k + n` (`INCR` counts
denied requests too). -/
theorem redisBurst_pattern (env : Env) (ns ip : String) (ts : List Int) :
    ∀ (st : RedisState) (k : Int),
    st.counts (redisKeyFor ns ip) = k →
    ((redisBurst env ns ip st ts).1.map (fun r => r.allowed)
        = (List.range ts.length).map
            (fun i : Nat => decide (k + (i : Int) < maxRequestsFor env ns)))
    ∧ (redisBurst env ns ip st ts).2.counts (redisKeyFor ns ip)
        = k + (ts.length : Int) := by
  induction ts with
  | nil =>
    intro st k h
    exact ⟨by simp [redisBurst], by simp [redisBurst, h]⟩
  | cons t ts ih =>
    intro st k h
    have hall := checkRedis_allowed env t st ip ns
    have hcount := checkRedis_counts_self env t st ip ns
    obtain ⟨ihmap, ihfin⟩ :=
      ih (checkRedisRateLimit env t st ip ns).2 (k + 1) (by rw [hcount, h])
    constructor
    · simp only [redisBurst, List.map_cons, ihmap, List.length_cons,
        List.range_succ_eq_map, List.map_map, List.cons_eq_cons]
      refine ⟨?_, List.map_congr_left fun i _ => ?_⟩
      · rw [hall, h, decide_eq_decide]
        push_cast
        omega
      · simp only [Function.comp]
        rw [decide_eq_decide]
        push_cast
        omega
    · simp only [redisBurst, List.length_cons]
      rw [ihfin]
      push_cast
      ring

/-! ### Storage-key distinctness -/

theorem string_data_append (a b : String) : (a ++ b).data = a.data ++ b.data := rfl

theorem string_append_cancel_left (p a b : String) (h : p ++ a = p ++ b) : a = b := by
  have hd := congrArg String.data h
  rw [string_data_append, string_data_append] at hd
  have h2 := List.append_cancel_left hd
  cases a
  cases b
  exact congrArg String.mk h2

theorem limiterKeyMem_processing (ip : String) :
    limiterKeyMem "processing" ip = "ratelimit:processing:" ++ ip := rfl

theorem limiterKeyMem_health (ip : String) :
    limiterKeyMem "health" ip = "ratelimit:health:" ++ ip := rfl

theorem prefix_cross_ne (a b : String) :
    "ratelimit:processing:" ++ a ≠ "ratelimit:health:" ++ b := by
  intro h
  have hd := congrArg String.data h
  rw [string_data_append, string_data_append] at hd
  have h10 : ("ratelimit:processing:".data ++ a.data)[10]?
      = ("ratelimit:health:".data ++ b.data)[10]? := by rw [hd]
  rw [List.getElem?_append_left (by decide), List.getElem?_append_left (by decide)] at h10
  exact absurd h10 (by decide)

/-- For the two namespaces the module uses, the in-memory storage keys of two
(namespace, identity) pairs coincide exactly when the pairs do: the raw
identity is embedded verbatim after a namespace-distinguishing prefix. -/
theorem limiterKeyMem_inj (ns ns' ip ip' : String)
    (hns : ns = "processing" ∨ ns = "health")
    (hns' : ns' = "processing" ∨ ns' = "health") :
    limiterKeyMem ns ip = limiterKeyMem ns' ip' ↔ (ns = ns' ∧ ip = ip') := by
  constructor
  · intro h
    rcases hns with h1 | h1 <;> rcases hns' with h2 | h2 <;> subst h1 <;> subst h2
    · rw [limiterKeyMem_processing, limiterKeyMem_processing] at h
      exact ⟨rfl, string_append_cancel_left _ _ _ h⟩
    · rw [limiterKeyMem_processing, limiterKeyMem_health] at h
      exact absurd h (prefix_cross_ne ip ip')
    · rw [limiterKeyMem_health, limiterKeyMem_processing] at h
      exact absurd h.symm (prefix_cross_ne ip' ip)
    · rw [limiterKeyMem_health, limiterKeyMem_health] at h
      exact ⟨rfl, string_append_cancel_left _ _ _ h⟩
  · rintro ⟨rfl, rfl⟩
    rfl

/-- The Redis key is the in-memory key of the sanitized identity. -/
theorem redisKeyFor_eq (ns ip : String) :
    redisKeyFor ns ip = limiterKeyMem ns (sanitizeIP ip) := rfl

/-! ### Frame lemmas for the in-memory backend -/

/-- A check touches no map entry but its own key's. -/
theorem checkInMemory_frame (env : Env) (now : Int) (m : MemMap) (ip ns k : String)
    (hk : k ≠ limiterKeyMem ns ip) :
    (checkInMemoryRateLimit env now m ip ns).2 k = m k := by
  simp only [checkInMemoryRateLimit]
  cases hm : m (limiterKeyMem ns ip) with
  | none => exact updateMem_other m _ k _ hk
  | some e =>
    dsimp only
    by_cases h1 : now > e.resetTime
    · rw [if_pos h1]
      exact updateMem_other m _ k _ hk
    · rw [if_neg h1]
      by_cases h2 : e.count ≥ maxRequestsFor env ns
      · rw [if_pos h2]
      · rw [if_neg h2]
        exact updateMem_other m _ k _ hk

/-- The result of a check depends on the map only through its own key's
entry. -/
theorem checkInMemory_key_only (env : Env) (now : Int) (m1 m2 : MemMap) (ip ns : String)
    (h : m1 (limiterKeyMem ns ip) = m2 (limiterKeyMem ns ip)) :
    (checkInMemoryRateLimit env now m1 ip ns).1
      = (checkInMemoryRateLimit env now m2 ip ns).1 := by
  simp only [checkInMemoryRateLimit, h]
  cases hm : m2 (limiterKeyMem ns ip) with
  | none => rfl
  | some e =>
    dsimp only
    by_cases h1 : now > e.resetTime
    · rw [if_pos h1, if_pos h1]
    · rw [if_neg h1, if_neg h1]
      by_cases h2 : e.count ≥ maxRequestsFor env ns
      · rw [if_pos h2, if_pos h2]
      · rw [if_neg h2, if_neg h2]

/-- A denied in-memory check comes from an unexpired entry at or above the
limit, and its result is exactly the denial object of the source. -/
theorem checkInMemory_denied_inv (env : Env) (now : Int) (m : MemMap) (ip ns : String)
    (h : (checkInMemoryRateLimit env now m ip ns).1.allowed = false) :
    ∃ c R, m (limiterKeyMem ns ip) = some ⟨c, R⟩ ∧ now ≤ R
      ∧ maxRequestsFor env ns ≤ c
      ∧ (checkInMemoryRateLimit env now m ip ns).1
          = ⟨false, 0, R, some (ceilDiv1000 (R - now))⟩ := by
  cases hm : m (limiterKeyMem ns ip) with
  | none =>
    rw [checkInMemory_fresh env now m ip ns hm] at h
    simp at h
  | some e =>
    obtain ⟨ec, eR⟩ := e
    by_cases h1 : now > eR
    · rw [checkInMemory_expired env now m ip ns ec eR hm h1] at h
      simp at h
    · by_cases h2 : maxRequestsFor env ns ≤ ec
      · refine ⟨ec, eR, rfl, by omega, h2, ?_⟩
        rw [checkInMemory_denied env now m ip ns ec eR hm (by omega) h2]
      · rw [checkInMemory_incr env now m ip ns ec eR hm (by omega) (by omega)] at h
        simp at h

/-- A Redis check's result depends on the store only through the counter at
its own key. -/
theorem checkRedis_key_only (env : Env) (now : Int) (st1 st2 : RedisState)
    (ip ns : String)
    (h : st1.counts (redisKeyFor ns ip) = st2.counts (redisKeyFor ns ip)) :
    (checkRedisRateLimit env now st1 ip ns).1
      = (checkRedisRateLimit env now st2 ip ns).1 := by
  simp only [checkRedisRateLimit, h]
  by_cases hgt : st2.counts (redisKeyFor ns ip) + 1 > maxRequestsFor env ns
  · rw [if_pos hgt, if_pos hgt]
  · rw [if_neg hgt, if_neg hgt]

/-- `countAllowed` through the Boolean image of a burst. -/
theorem countAllowed_eq (rs : List RateLimitResult) :
    countAllowed rs = ((rs.map (fun r => r.allowed)).filter (fun b => b)).length := by
  unfold countAllowed
  induction rs with
  | nil => rfl
  | cons r rs ih =>
    by_cases hr : r.allowed
    · simp [List.filter, hr, ih]
    · simp [List.filter, hr, ih]

/-- With every Redis call failing, each step of the gate produces exactly the
in-memory decision on the current map, whatever the process flags are. -/
theorem gateBurstAllFail_eq_memBurst (env : Env) (ns ip : String)
    (credsPresent pingOk : Bool) (ts : List Int) :
    ∀ st : ProcState,
    (gateBurstAllFail env ns ip credsPresent pingOk st ts).1
        = (memBurst env ns ip st.mem ts).1
    ∧ (gateBurstAllFail env ns ip credsPresent pingOk st ts).2.mem
        = (memBurst env ns ip st.mem ts).2 := by
  induction ts with
  | nil => intro st; exact ⟨rfl, rfl⟩
  | cons t ts ih =>
    intro st
    have hstep : (rateLimitStep env t ip ns credsPresent pingOk true st).1
          = (checkInMemoryRateLimit env t st.mem ip ns).1
        ∧ (rateLimitStep env t ip ns credsPresent pingOk true st).2.mem
          = (checkInMemoryRateLimit env t st.mem ip ns).2 := by
      obtain ⟨u, cS, init, mm, rr⟩ := st
      cases u <;> cases cS <;> cases init <;> cases credsPresent <;> cases pingOk <;>
        exact ⟨rfl, rfl⟩
    obtain ⟨ih1, ih2⟩ :=
      ih (rateLimitStep env t ip ns credsPresent pingOk true st).2
    constructor
    · simp only [gateBurstAllFail, memBurst, hstep.1, List.cons_eq_cons]
      refine ⟨trivial, ?_⟩
      rw [ih1, hstep.2]
    · simp only [gateBurstAllFail, memBurst]
      rw [ih2, hstep.2]

/-- A step never turns the backend flag back on once the limiter is
initialized: the only assignment to `useRedis = true` sits inside the
initialization guard. -/
theorem rateLimitStep_no_reupgrade (env : Env) (now : Int) (ip ns : String)
    (credsPresent pingOk fails : Bool) (st : ProcState)
    (hinit : st.rateLimiterInitialized = true) (hflag : st.useRedis = false) :
    (rateLimitStep env now ip ns credsPresent pingOk fails st).2.useRedis = false
    ∧ (rateLimitStep env now ip ns credsPresent pingOk fails st).1
        = (checkInMemoryRateLimit env now st.mem ip ns).1 := by
  obtain ⟨u, cS, init, mm, rr⟩ := st
  simp only at hinit hflag
  subst hinit
  subst hflag
  cases cS <;> cases credsPresent <;> cases pingOk <;> cases fails <;> exact ⟨rfl, rfl⟩

/-- Turn an allowed-pattern for a burst into the middleware's 429 pattern. -/
theorem gateStatus_pattern (rs : List RateLimitResult) (L : Int) (n : Nat)
    (h : rs.map (fun r => r.allowed)
        = (List.range n).map (fun i : Nat => decide ((i : Int) < L))) :
    rs.map gateStatusOf
      = (List.range n).map
          (fun i : Nat => if (i : Int) < L then none else some 429) := by
  have h1 : rs.map gateStatusOf
      = (rs.map (fun r => r.allowed)).map
          (fun b => if b then (none : Option Nat) else some 429) := by
    rw [List.map_map]
    rfl
  rw [h1, h, List.map_map]
  refine List.map_congr_left fun i _ => ?_
  by_cases hP : ((i : Int) < L)
  · simp [Function.comp, hP]
  · simp [Function.comp, hP]

/-- The first field produced by the comma-split is everything before the
first comma (with the accumulator prepended). -/
theorem splitCommaAux_head (cs : List Char) :
    ∀ acc, (splitCommaAux cs acc).head?
      = some (acc.reverse ++ cs.takeWhile (fun c => c ≠ ',')) := by
  induction cs with
  | nil =>
    intro acc
    simp [splitCommaAux]
  | cons c rest ih =>
    intro acc
    by_cases hc : c = ','
    · subst hc
      simp [splitCommaAux, List.takeWhile_cons]
    · simp only [splitCommaAux, if_neg hc, List.takeWhile_cons]
      rw [ih (c :: acc)]
      simp [hc]

/-- `split(',')[0]` is the leftmost comma-separated field. -/
theorem jsSplitComma_head (s : String) :
    (jsSplitComma s).headD "" = firstCommaField s := by
  unfold jsSplitComma firstCommaField
  have h := splitCommaAux_head s.data []
  cases hsp : splitCommaAux s.data [] with
  | nil =>
    rw [hsp] at h
    simp at h
  | cons x xs =>
    rw [hsp] at h
    simp only [List.head?_cons, Option.some.injEq, List.reverse_nil,
      List.nil_append] at h
    simp [h]

/-- A falsy first operand of `||` selects the second. -/
theorem jsOrElse_of_falsy (a : Option String) (b : String)
    (h : a = none ∨ a = some "") : jsOrElse a b = b := by
  rcases h with h | h <;> subst h
  · rfl
  · dsimp only [jsOrElse]
    rw [if_neg (by simp)]

/-- A truthy first operand of `||` is returned as is. -/
theorem jsOrElse_of_truthy (s b : String) (hs : s ≠ "") :
    jsOrElse (some s) b = s := by
  dsimp only [jsOrElse]
  rw [if_pos hs]

/-- `||` of anything with a non-empty default is non-empty. -/
theorem jsOrElse_ne_empty (a : Option String) (b : String) (hb : b ≠ "") :
    jsOrElse a b ≠ "" := by
  cases a with
  | none => exact hb
  | some s =>
    dsimp only [jsOrElse]
    by_cases hs : s ≠ ""
    · rw [if_pos hs]
      exact hs
    · rw [if_neg hs]
      exact hb

/-- The `req.ip || req.connection?.remoteAddress || 'unknown'` chain never
produces the empty string. -/
theorem fallbackAddress_ne_empty (req : Request) : fallbackAddress req ≠ "" :=
  jsOrElse_ne_empty _ _ (jsOrElse_ne_empty _ _ (by decide))

/-- With no usable forwarding header the source falls through to the
`req.ip || remoteAddress || 'unknown'` chain. -/
theorem extractClientIP_no_header (req : Request)
    (h : req.xForwardedFor = none ∨ req.xForwardedFor = some "") :
    extractClientIP req = fallbackAddress req := by
  obtain ⟨xf, ip, conn⟩ := req
  rcases h with h | h <;> simp only at h <;> subst h
  · rfl
  · simp [extractClientIP]

/-- The fallback chain takes a truthy `req.ip` first. -/
theorem fallbackAddress_ip (req : Request) (s : String)
    (h : req.ip = some s) (hs : s ≠ "") : fallbackAddress req = s := by
  unfold fallbackAddress
  rw [h, jsOrElse_of_truthy _ _ hs]

/-- With a falsy `req.ip`, the chain takes a truthy remote address. -/
theorem fallbackAddress_conn (req : Request) (c : Connection) (r : String)
    (hip : req.ip = none ∨ req.ip = some "")
    (hc : req.connection = some c) (hr : c.remoteAddress = some r)
    (hrne : r ≠ "") : fallbackAddress req = r := by
  unfold fallbackAddress
  rw [jsOrElse_of_falsy _ _ hip, hc]
  show jsOrElse c.remoteAddress "unknown" = r
  rw [hr, jsOrElse_of_truthy _ _ hrne]

/-- With every link falsy the chain ends at the literal "unknown". -/
theorem fallbackAddress_unknown (req : Request)
    (hip : req.ip = none ∨ req.ip = some "")
    (hc : req.connection = none ∨ ∃ c, req.connection = some c ∧
      (c.remoteAddress = none ∨ c.remoteAddress = some "")) :
    fallbackAddress req = "unknown" := by
  unfold fallbackAddress
  rw [jsOrElse_of_falsy _ _ hip]
  rcases hc with h | ⟨c, h, hra⟩ <;> rw [h]
  · rfl
  · show jsOrElse c.remoteAddress "unknown" = "unknown"
    exact jsOrElse_of_falsy _ _ hra

/-- `Math.ceil(x/1000)` via Euclidean division. -/
theorem ceilDiv1000_eq_neg_ediv (x : Int) : ceilDiv1000 x = -((-x) / 1000) := by
  unfold ceilDiv1000
  rw [Int.fdiv_eq_ediv _ (by norm_num)]

/-- `Math.floor(x/1000)` via Euclidean division. -/
theorem fdiv_1000_eq_ediv (x : Int) : Int.fdiv x 1000 = x / 1000 :=
  Int.fdiv_eq_ediv _ (by norm_num)

/-! ## Claim theorems -/

/-- C6 (amended): `extractClientIP` is a total function of the request (never
throws) and resolves identity as described: with a present non-empty
`x-forwarded-for` header it returns the trimmed leftmost comma-separated
field (so "9.9.9.9, 10.0.0.1" resolves to "9.9.9.9"); with no usable header
it returns a truthy `req.ip`, else a truthy `req.connection?.remoteAddress`,
else the literal "unknown", and on this no-header path the result is never
empty.  The original unconditional non-emptiness fails: with a header
present, the result is exactly the trimmed leftmost field, which is empty
when that field is all whitespace. -/
theorem extractClientIP_amended :
    (∀ (req : Request) (h : String), req.xForwardedFor = some h → h ≠ "" →
        extractClientIP req = jsTrim (firstCommaField h))
    ∧ (∀ req : Request,
        (req.xForwardedFor = none ∨ req.xForwardedFor = some "") →
        extractClientIP req ≠ "")
    ∧ (∀ (req : Request) (s : String),
        (req.xForwardedFor = none ∨ req.xForwardedFor = some "") →
        req.ip = some s → s ≠ "" → extractClientIP req = s)
    ∧ (∀ (req : Request) (c : Connection) (r : String),
        (req.xForwardedFor = none ∨ req.xForwardedFor = some "") →
        (req.ip = none ∨ req.ip = some "") → req.connection = some c →
        c.remoteAddress = some r → r ≠ "" → extractClientIP req = r)
    ∧ (∀ req : Request,
        (req.xForwardedFor = none ∨ req.xForwardedFor = some "") →
        (req.ip = none ∨ req.ip = some "") →
        (req.connection = none ∨ ∃ c, req.connection = some c ∧
            (c.remoteAddress = none ∨ c.remoteAddress = some "")) →
        extractClientIP req = "unknown")
    ∧ extractClientIP ⟨some "9.9.9.9, 10.0.0.1", none, none⟩ = "9.9.9.9" := by
  refine ⟨?_, ?_, ?_, ?_, ?_, by decide⟩
  · intro req h hxf hne
    obtain ⟨xf, ip, conn⟩ := req
    simp only at hxf
    subst hxf
    dsimp only [extractClientIP]
    rw [if_pos hne, jsSplitComma_head]
  · intro req hnh
    rw [extractClientIP_no_header req hnh]
    exact fallbackAddress_ne_empty req
  · intro req s hnh hip hs
    rw [extractClientIP_no_header req hnh]
    exact fallbackAddress_ip req s hip hs
  · intro req c r hnh hip hc hr hrne
    rw [extractClientIP_no_header req hnh]
    exact fallbackAddress_conn req c r hip hc hr hrne
  · intro req hnh hip hc
    rw [extractClientIP_no_header req hnh]
    exact fallbackAddress_unknown req hip hc

/-- C6 witness: the amended theorem applied at concrete requests for each
resolution step. -/
theorem extractClientIP_amended_witness :
    extractClientIP ⟨some "9.9.9.9, 10.0.0.1", none, none⟩
        = jsTrim (firstCommaField "9.9.9.9, 10.0.0.1")
    ∧ extractClientIP ⟨none, some "", some ⟨some "2.2.2.2"⟩⟩ ≠ ""
    ∧ extractClientIP ⟨some "", some "1.1.1.1", none⟩ = "1.1.1.1"
    ∧ extractClientIP ⟨none, some "", some ⟨some "2.2.2.2"⟩⟩ = "2.2.2.2"
    ∧ extractClientIP ⟨none, none, some ⟨some ""⟩⟩ = "unknown" :=
  ⟨extractClientIP_amended.1 _ _ rfl (by decide),
   extractClientIP_amended.2.1 _ (Or.inl rfl),
   extractClientIP_amended.2.2.1 _ _ (Or.inr rfl) rfl (by decide),
   extractClientIP_amended.2.2.2.1 _ _ _ (Or.inl rfl) (Or.inr rfl) rfl rfl
     (by decide),
   extractClientIP_amended.2.2.2.2.1 _ (Or.inl rfl) (Or.inl rfl)
     (Or.inr ⟨_, rfl, Or.inr rfl⟩)⟩

/-- C6 counterexample: a present forwarding header whose leftmost field is
all whitespace makes the source return the empty string even though truthy
fallback identities exist, refuting "always returns a non-empty string". -/
theorem extractClientIP_counterexample :
    extractClientIP ⟨some " , 10.0.0.1", some "1.1.1.1", some ⟨some "2.2.2.2"⟩⟩
      = "" := by decide

/-- C8: the `parseInt(…, 10) || default` idiom substitutes the namespace
default for a `NaN` (non-numeric) and for `0`, but a negative configured
limit is truthy and is used as is: `RATE_LIMIT_PER_HOUR="-5"` yields an
effective processing limit of `-5`, under which the second request of a
fresh identity is already denied — contradicting both the claim and the
repository documentation ("If invalid or missing, defaults to 10"). -/
theorem negative_limit_accepted :
    PROCESSING_RATE_LIMIT_MAX_REQUESTS ⟨some "-5", none⟩ = -5
    ∧ HEALTH_CHECK_RATE_LIMIT_MAX_REQUESTS ⟨none, some "-5"⟩ = -5
    ∧ PROCESSING_RATE_LIMIT_MAX_REQUESTS ⟨some "0", none⟩ = 10
    ∧ PROCESSING_RATE_LIMIT_MAX_REQUESTS ⟨some "abc", none⟩ = 10
    ∧ PROCESSING_RATE_LIMIT_MAX_REQUESTS ⟨none, none⟩ = 10
    ∧ HEALTH_CHECK_RATE_LIMIT_MAX_REQUESTS ⟨none, none⟩ = 100
    ∧ ((memBurst ⟨some "-5", none⟩ "processing" "1.2.3.4" emptyMem [0, 0]).1.map
        (fun r => r.allowed)) = [true, false] := by decide

/-- C5 (amended): the `ceil((resetAt − now)/1000)` formula holds only for the
in-memory backend, and its value is ≥ 1 only when the denial happens strictly
before `resetTime` (at `now = resetTime` the hint is 0 — the source has no
1-second floor).  The Redis backend reports `60 − floor((now mod 60000)/1000)`
— the seconds to the next minute boundary, in `[1, 60]` — which is unrelated
to the reported `resetTime`. -/
theorem retryAfter_amended :
    (∀ (env : Env) (now : Int) (m : MemMap) (ip ns : String),
      (checkInMemoryRateLimit env now m ip ns).1.allowed = false →
        (checkInMemoryRateLimit env now m ip ns).1.retryAfter
            = some (ceilDiv1000
                ((checkInMemoryRateLimit env now m ip ns).1.resetTime - now))
        ∧ (now < (checkInMemoryRateLimit env now m ip ns).1.resetTime →
            1 ≤ ceilDiv1000
                ((checkInMemoryRateLimit env now m ip ns).1.resetTime - now)))
    ∧ (∀ (env : Env) (now : Int) (st : RedisState) (ip ns : String), 0 ≤ now →
      (checkRedisRateLimit env now st ip ns).1.allowed = false →
        (checkRedisRateLimit env now st ip ns).1.retryAfter
            = some (60 - Int.fdiv (now % 60000) 1000)
        ∧ 1 ≤ 60 - Int.fdiv (now % 60000) 1000
        ∧ 60 - Int.fdiv (now % 60000) 1000 ≤ 60) := by
  constructor
  · intro env now m ip ns hfalse
    obtain ⟨c, R, hm, hnow, hc, heq⟩ := checkInMemory_denied_inv env now m ip ns hfalse
    rw [heq]
    refine ⟨rfl, ?_⟩
    intro hlt
    have hlt2 : now < R := hlt
    show 1 ≤ ceilDiv1000 (R - now)
    rw [ceilDiv1000_eq_neg_ediv]
    omega
  · intro env now st ip ns hnow hfalse
    rw [checkRedis_allowed] at hfalse
    have hgt : maxRequestsFor env ns < st.counts (redisKeyFor ns ip) + 1 := by
      simpa using hfalse
    refine ⟨?_, ?_, ?_⟩
    · rw [checkRedis_retryAfter, if_pos hgt]
    · rw [fdiv_1000_eq_ediv]
      omega
    · rw [fdiv_1000_eq_ediv]
      omega

/-- C5 witness: the amended theorem applied at a concrete denied in-memory
check and a concrete denied Redis check. -/
theorem retryAfter_amended_witness :
    (checkInMemoryRateLimit defaultEnv 1000
        (updateMem emptyMem (limiterKeyMem "processing" "1.2.3.4") ⟨10, 5000⟩)
        "1.2.3.4" "processing").1.retryAfter
      = some (ceilDiv1000 ((checkInMemoryRateLimit defaultEnv 1000
        (updateMem emptyMem (limiterKeyMem "processing" "1.2.3.4") ⟨10, 5000⟩)
        "1.2.3.4" "processing").1.resetTime - 1000))
    ∧ (checkRedisRateLimit defaultEnv 0
        ⟨fun k => if k = redisKeyFor "processing" "1.2.3.4" then 10 else 0,
         fun _ => none⟩ "1.2.3.4" "processing").1.retryAfter
      = some (60 - Int.fdiv ((0 : Int) % 60000) 1000) :=
  ⟨(retryAfter_amended.1 defaultEnv 1000 _ "1.2.3.4" "processing" (by decide)).1,
   (retryAfter_amended.2 defaultEnv 0 _ "1.2.3.4" "processing" (by decide)
     (by decide)).1⟩

/-- C5 counterexample: a denied Redis request at `now = 0` with the counter
at the default limit reports `retryAfter = 60` while
`ceil((resetAt − now)/1000) = 3600`, refuting the claimed formula for the
Redis backend. -/
theorem retryAfter_counterexample :
    (checkRedisRateLimit defaultEnv 0
        ⟨fun k => if k = redisKeyFor "processing" "1.2.3.4" then 10 else 0,
         fun _ => none⟩ "1.2.3.4" "processing").1.allowed = false
    ∧ (checkRedisRateLimit defaultEnv 0
        ⟨fun k => if k = redisKeyFor "processing" "1.2.3.4" then 10 else 0,
         fun _ => none⟩ "1.2.3.4" "processing").1.retryAfter = some 60
    ∧ ceilDiv1000 ((checkRedisRateLimit defaultEnv 0
        ⟨fun k => if k = redisKeyFor "processing" "1.2.3.4" then 10 else 0,
         fun _ => none⟩ "1.2.3.4" "processing").1.resetTime - 0) = 3600
    ∧ (60 : Int) ≠ 3600 := by decide

/-- C7 (amended): an observation STRICTLY after `resetTime` overwrites the
entry with `{count: 1, resetTime: now + window}`, is allowed with a full
fresh quota (`remaining = limit − 1`), and the identity again has `limit`
allowed requests in the new window.  (At `now = resetTime` exactly, the
source treats the entry as still live — see the counterexample.) -/
theorem window_reset_amended :
    ∀ (env : Env) (ns ip : String) (m : MemMap) (c R t1 : Int) (ts : List Int),
    m (limiterKeyMem ns ip) = some ⟨c, R⟩ → R < t1 →
    1 ≤ maxRequestsFor env ns →
    (∀ t ∈ ts, t ≤ t1 + RATE_LIMIT_WINDOW) →
    (checkInMemoryRateLimit env t1 m ip ns).1.allowed = true
    ∧ (checkInMemoryRateLimit env t1 m ip ns).1.remaining
        = maxRequestsFor env ns - 1
    ∧ (checkInMemoryRateLimit env t1 m ip ns).2 (limiterKeyMem ns ip)
        = some ⟨1, t1 + RATE_LIMIT_WINDOW⟩
    ∧ (memBurst env ns ip m (t1 :: ts)).1.map (fun r => r.allowed)
        = (List.range (ts.length + 1)).map
            (fun i : Nat => decide ((i : Int) < maxRequestsFor env ns)) := by
  intro env ns ip m c R t1 ts hm hR hL hts
  have hstep := checkInMemory_expired env t1 m ip ns c R hm hR
  refine ⟨by rw [hstep], by rw [hstep], ?_, ?_⟩
  · rw [hstep]
    exact updateMem_same m (limiterKeyMem ns ip) ⟨1, t1 + RATE_LIMIT_WINDOW⟩
  · exact (memBurst_fresh env ns ip m t1 ts (Or.inr ⟨⟨c, R⟩, hm, hR⟩) hts hL).1

/-- C7 witness: the amended theorem at a concrete expired entry; the
resetting request and the following ten requests of the new window. -/
theorem window_reset_amended_witness :
    (checkInMemoryRateLimit defaultEnv 1001
        (updateMem emptyMem (limiterKeyMem "processing" "1.2.3.4") ⟨10, 1000⟩)
        "1.2.3.4" "processing").1.allowed = true
    ∧ (checkInMemoryRateLimit defaultEnv 1001
        (updateMem emptyMem (limiterKeyMem "processing" "1.2.3.4") ⟨10, 1000⟩)
        "1.2.3.4" "processing").2 (limiterKeyMem "processing" "1.2.3.4")
      = some ⟨1, 1001 + RATE_LIMIT_WINDOW⟩
    ∧ (memBurst defaultEnv "processing" "1.2.3.4"
        (updateMem emptyMem (limiterKeyMem "processing" "1.2.3.4") ⟨10, 1000⟩)
        (1001 :: List.replicate 10 1001)).1.map (fun r => r.allowed)
      = (List.range 11).map
          (fun i : Nat => decide ((i : Int) < maxRequestsFor defaultEnv "processing")) := by
  have h := window_reset_amended defaultEnv "processing" "1.2.3.4"
    (updateMem emptyMem (limiterKeyMem "processing" "1.2.3.4") ⟨10, 1000⟩)
    10 1000 1001 (List.replicate 10 1001) (by decide) (by decide) (by decide)
    (fun t ht => by rw [List.eq_of_mem_replicate ht]; decide)
  exact ⟨h.1, h.2.2.1, h.2.2.2⟩

/-- C7 counterexample: at `now` exactly equal to `resetTime` (entry
`{count: 10, resetTime: 1000}`, observation at 1000) the source does NOT
reset the window: the request is denied and the entry kept, refuting "an
observation at or after resetTime replaces the entry … and the request is
allowed". -/
theorem window_reset_counterexample :
    (checkInMemoryRateLimit defaultEnv 1000
        (updateMem emptyMem (limiterKeyMem "processing" "1.2.3.4") ⟨10, 1000⟩)
        "1.2.3.4" "processing").1.allowed = false
    ∧ (checkInMemoryRateLimit defaultEnv 1000
        (updateMem emptyMem (limiterKeyMem "processing" "1.2.3.4") ⟨10, 1000⟩)
        "1.2.3.4" "processing").2 (limiterKeyMem "processing" "1.2.3.4")
      = some ⟨10, 1000⟩ := by decide

/-- C1: from a fresh key, under the default configuration, both backends
allow exactly the first `limit` requests of a window (limit 10 for the
processing namespace, 100 for health) and turn every further request of the
same window into a 429 rejection. -/
theorem dual_backend_limit_enforced :
    ∀ (ns ip : String) (t1 : Int) (ts : List Int) (m0 : MemMap)
      (st0 : RedisState),
    (ns = "processing" ∨ ns = "health") →
    m0 (limiterKeyMem ns ip) = none →
    st0.counts (redisKeyFor ns ip) = 0 →
    (∀ t ∈ ts, t ≤ t1 + RATE_LIMIT_WINDOW) →
    maxRequestsFor defaultEnv ns = (if ns = "health" then 100 else 10)
    ∧ ((memBurst defaultEnv ns ip m0 (t1 :: ts)).1.map (fun r => r.allowed)
        = (List.range (ts.length + 1)).map
            (fun i : Nat => decide ((i : Int) < maxRequestsFor defaultEnv ns)))
    ∧ ((memBurst defaultEnv ns ip m0 (t1 :: ts)).1.map gateStatusOf
        = (List.range (ts.length + 1)).map
            (fun i : Nat => if (i : Int) < maxRequestsFor defaultEnv ns
              then none else some 429))
    ∧ ((redisBurst defaultEnv ns ip st0 (t1 :: ts)).1.map (fun r => r.allowed)
        = (List.range (ts.length + 1)).map
            (fun i : Nat => decide ((i : Int) < maxRequestsFor defaultEnv ns)))
    ∧ ((redisBurst defaultEnv ns ip st0 (t1 :: ts)).1.map gateStatusOf
        = (List.range (ts.length + 1)).map
            (fun i : Nat => if (i : Int) < maxRequestsFor defaultEnv ns
              then none else some 429)) := by
  intro ns ip t1 ts m0 st0 hns hm0 hst0 hts
  have hLval : maxRequestsFor defaultEnv ns = (if ns = "health" then 100 else 10) := by
    rcases hns with h | h <;> subst h <;> decide
  have hL : 1 ≤ maxRequestsFor defaultEnv ns := by
    rw [hLval]
    split <;> omega
  have hmem := memBurst_fresh defaultEnv ns ip m0 t1 ts (Or.inl hm0) hts hL
  have hred := redisBurst_pattern defaultEnv ns ip (t1 :: ts) st0 0 hst0
  have hred1 : (redisBurst defaultEnv ns ip st0 (t1 :: ts)).1.map (fun r => r.allowed)
      = (List.range (ts.length + 1)).map
          (fun i : Nat => decide ((i : Int) < maxRequestsFor defaultEnv ns)) := by
    have h1 := hred.1
    simp only [List.length_cons] at h1
    rw [h1]
    exact List.map_congr_left fun i _ => by rw [decide_eq_decide]; omega
  exact ⟨hLval, hmem.1, gateStatus_pattern _ _ _ hmem.1, hred1,
    gateStatus_pattern _ _ _ hred1⟩

/-- C1 witness: twelve requests at one instant from a fresh identity under
both backends with the default processing limit. -/
theorem dual_backend_limit_enforced_witness :
    ((memBurst defaultEnv "processing" "1.2.3.4" emptyMem
        (0 :: List.replicate 11 0)).1.map (fun r => r.allowed)
      = (List.range 12).map
          (fun i : Nat => decide ((i : Int) < maxRequestsFor defaultEnv "processing")))
    ∧ ((redisBurst defaultEnv "processing" "1.2.3.4" emptyRedis
        (0 :: List.replicate 11 0)).1.map gateStatusOf
      = (List.range 12).map
          (fun i : Nat => if (i : Int) < maxRequestsFor defaultEnv "processing"
            then none else some 429)) := by
  have h := dual_backend_limit_enforced "processing" "1.2.3.4" 0
    (List.replicate 11 0) emptyMem emptyRedis (Or.inl rfl) rfl rfl
    (fun t ht => by rw [List.eq_of_mem_replicate ht]; decide)
  exact ⟨h.2.1, h.2.2.2.2⟩

/-- One gate step whose Redis call throws produces exactly the in-memory
decision on the current map and leaves the map as that check left it. -/
theorem rateLimitStep_fail_is_mem (env : Env) (now : Int) (ip ns : String)
    (credsPresent pingOk : Bool) (st : ProcState) :
    (rateLimitStep env now ip ns credsPresent pingOk true st).1
        = (checkInMemoryRateLimit env now st.mem ip ns).1
    ∧ (rateLimitStep env now ip ns credsPresent pingOk true st).2.mem
        = (checkInMemoryRateLimit env now st.mem ip ns).2 := by
  obtain ⟨u, cS, init, mm, rr⟩ := st
  cases u <;> cases cS <;> cases init <;> cases credsPresent <;> cases pingOk <;>
    exact ⟨rfl, rfl⟩

/-- When an initialized process in Redis mode hits a throwing Redis call, the
`catch` turns the mode flag off. -/
theorem rateLimitStep_fail_flips (env : Env) (now : Int) (ip ns : String)
    (credsPresent pingOk : Bool) (st : ProcState)
    (hinit : st.rateLimiterInitialized = true) (hu : st.useRedis = true)
    (hcS : st.redisClientSome = true) :
    (rateLimitStep env now ip ns credsPresent pingOk true st).2.useRedis = false := by
  obtain ⟨u, cS, init, mm, rr⟩ := st
  simp only at hinit hu hcS
  subst hinit
  subst hu
  subst hcS
  cases credsPresent <;> cases pingOk <;> rfl

/-- C2: a throwing Redis call never reaches the caller — the same request is
re-evaluated in memory and still gets a decision, the process-wide flag
`useRedis` flips to false, every later request keeps using the in-memory
backend (the flag never returns to true after initialization), and a burst of
15 requests against an always-failing Redis backend from one fresh identity
under the default processing limit 10 yields exactly 10 allowed and 5 denied. -/
theorem redis_failure_fallback :
    ∀ (env : Env) (now : Int) (ns ip : String) (credsPresent pingOk : Bool)
      (st : ProcState),
    (st.rateLimiterInitialized = true →
      (rateLimitStep env now ip ns credsPresent pingOk true st).1
          = (checkInMemoryRateLimit env now st.mem ip ns).1
      ∧ (st.useRedis = true → st.redisClientSome = true →
        (rateLimitStep env now ip ns credsPresent pingOk true st).2.useRedis
          = false))
    ∧ (∀ fails : Bool, st.rateLimiterInitialized = true → st.useRedis = false →
        (rateLimitStep env now ip ns credsPresent pingOk fails st).2.useRedis
            = false
        ∧ (rateLimitStep env now ip ns credsPresent pingOk fails st).1
            = (checkInMemoryRateLimit env now st.mem ip ns).1)
    ∧ countAllowed (gateBurstAllFail defaultEnv "processing" "9.9.9.9" true true
        ⟨true, true, true, emptyMem, emptyRedis⟩ (List.replicate 15 0)).1 = 10
    ∧ ((gateBurstAllFail defaultEnv "processing" "9.9.9.9" true true
        ⟨true, true, true, emptyMem, emptyRedis⟩ (List.replicate 15 0)).1.length
      - countAllowed (gateBurstAllFail defaultEnv "processing" "9.9.9.9" true true
        ⟨true, true, true, emptyMem, emptyRedis⟩ (List.replicate 15 0)).1) = 5
    ∧ (gateBurstAllFail defaultEnv "processing" "9.9.9.9" true true
        ⟨true, true, true, emptyMem, emptyRedis⟩
        (List.replicate 15 0)).2.useRedis = false := by
  intro env now ns ip credsPresent pingOk st
  refine ⟨?_, ?_, by decide, by decide, by decide⟩
  · intro hinit
    exact ⟨(rateLimitStep_fail_is_mem env now ip ns credsPresent pingOk st).1,
      fun hu hcS => rateLimitStep_fail_flips env now ip ns credsPresent pingOk st
        hinit hu hcS⟩
  · intro fails hinit hflag
    exact rateLimitStep_no_reupgrade env now ip ns credsPresent pingOk fails st
      hinit hflag

/-- C2 witness: the fallback theorem applied at a concrete Redis-mode state
with a throwing call, and at a concrete already-degraded state. -/
theorem redis_failure_fallback_witness :
    (rateLimitStep defaultEnv 0 "9.9.9.9" "processing" true true true
        ⟨true, true, true, emptyMem, emptyRedis⟩).2.useRedis = false
    ∧ (rateLimitStep defaultEnv 0 "9.9.9.9" "processing" true true false
        ⟨false, true, true, emptyMem, emptyRedis⟩).1
      = (checkInMemoryRateLimit defaultEnv 0 emptyMem "9.9.9.9" "processing").1 := by
  have h := redis_failure_fallback defaultEnv 0 "processing" "9.9.9.9" true true
    ⟨true, true, true, emptyMem, emptyRedis⟩
  have h2 := redis_failure_fallback defaultEnv 0 "processing" "9.9.9.9" true true
    ⟨false, true, true, emptyMem, emptyRedis⟩
  exact ⟨(h.1 rfl).2 rfl rfl, (h2.2.1 false rfl rfl).2⟩

/-- C3 (amended): a check never touches any storage entry, and never changes
any later decision, at a key other than its own; in the in-memory backend any
two distinct (namespace, identity) pairs over the two namespaces have
distinct keys, while in the Redis backend keys coincide exactly when the
namespace and the SANITIZED identity coincide — distinct identities that
sanitize alike (such as "1.2.3.4" and "1-2-3-4") share one counter. -/
theorem counter_isolation_amended :
    (∀ (env : Env) (now : Int) (m : MemMap) (ip ns k : String),
      k ≠ limiterKeyMem ns ip →
      (checkInMemoryRateLimit env now m ip ns).2 k = m k)
    ∧ (∀ (env : Env) (now now2 : Int) (m : MemMap) (ip ns ip2 ns2 : String),
      limiterKeyMem ns2 ip2 ≠ limiterKeyMem ns ip →
      (checkInMemoryRateLimit env now2
          (checkInMemoryRateLimit env now m ip ns).2 ip2 ns2).1
        = (checkInMemoryRateLimit env now2 m ip2 ns2).1)
    ∧ (∀ ns ns2 ip ip2 : String, (ns = "processing" ∨ ns = "health") →
        (ns2 = "processing" ∨ ns2 = "health") →
        (limiterKeyMem ns ip = limiterKeyMem ns2 ip2 ↔ (ns = ns2 ∧ ip = ip2)))
    ∧ (∀ (env : Env) (now : Int) (st : RedisState) (ip ns k : String),
      k ≠ redisKeyFor ns ip →
      (checkRedisRateLimit env now st ip ns).2.counts k = st.counts k
      ∧ (checkRedisRateLimit env now st ip ns).2.ttl k = st.ttl k)
    ∧ (∀ (env : Env) (now now2 : Int) (st : RedisState) (ip ns ip2 ns2 : String),
      redisKeyFor ns2 ip2 ≠ redisKeyFor ns ip →
      (checkRedisRateLimit env now2
          (checkRedisRateLimit env now st ip ns).2 ip2 ns2).1
        = (checkRedisRateLimit env now2 st ip2 ns2).1)
    ∧ (∀ ns ns2 ip ip2 : String, (ns = "processing" ∨ ns = "health") →
        (ns2 = "processing" ∨ ns2 = "health") →
        (redisKeyFor ns ip = redisKeyFor ns2 ip2
          ↔ (ns = ns2 ∧ sanitizeIP ip = sanitizeIP ip2))) := by
  refine ⟨?_, ?_, ?_, ?_, ?_, ?_⟩
  · intro env now m ip ns k hk
    exact checkInMemory_frame env now m ip ns k hk
  · intro env now now2 m ip ns ip2 ns2 hk
    exact checkInMemory_key_only env now2 _ m ip2 ns2
      (checkInMemory_frame env now m ip ns _ hk)
  · intro ns ns2 ip ip2 hns hns2
    exact limiterKeyMem_inj ns ns2 ip ip2 hns hns2
  · intro env now st ip ns k hk
    exact checkRedis_frame env now st ip ns k hk
  · intro env now now2 st ip ns ip2 ns2 hk
    exact checkRedis_key_only env now2 _ st ip2 ns2
      (checkRedis_frame env now st ip ns _ hk).1
  · intro ns ns2 ip ip2 hns hns2
    rw [redisKeyFor_eq, redisKeyFor_eq]
    exact limiterKeyMem_inj ns ns2 (sanitizeIP ip) (sanitizeIP ip2) hns hns2

/-- C3 witness: the amended theorem applied at concrete distinct keys. -/
theorem counter_isolation_witness :
    (checkInMemoryRateLimit defaultEnv 0 emptyMem "1.2.3.4" "processing").2
        (limiterKeyMem "health" "1.2.3.4")
      = emptyMem (limiterKeyMem "health" "1.2.3.4")
    ∧ (limiterKeyMem "processing" "1.2.3.4" = limiterKeyMem "processing" "5.6.7.8"
        ↔ (("processing" : String) = "processing"
            ∧ ("1.2.3.4" : String) = "5.6.7.8"))
    ∧ (checkRedisRateLimit defaultEnv 0 emptyRedis "1.2.3.4" "processing").2.counts
        (redisKeyFor "health" "1.2.3.4")
      = emptyRedis.counts (redisKeyFor "health" "1.2.3.4") := by
  have h := counter_isolation_amended
  exact ⟨h.1 defaultEnv 0 emptyMem "1.2.3.4" "processing" _ (by decide),
    h.2.2.1 "processing" "processing" "1.2.3.4" "5.6.7.8" (Or.inl rfl) (Or.inl rfl),
    (h.2.2.2.1 defaultEnv 0 emptyRedis "1.2.3.4" "processing" _ (by decide)).1⟩

/-- C3 counterexample: in the Redis backend the distinct identities
"1.2.3.4" and "1-2-3-4" sanitize to the same key in the same namespace, so
ten requests recorded under the first leave the second — which has made no
request at all — already denied, refuting "two distinct identities in the
same namespace never affect each other". -/
theorem counter_isolation_counterexample :
    ("1.2.3.4" : String) ≠ "1-2-3-4"
    ∧ sanitizeIP "1.2.3.4" = sanitizeIP "1-2-3-4"
    ∧ (checkRedisRateLimit defaultEnv 0 emptyRedis "1.2.3.4" "processing").2.counts
        (redisKeyFor "processing" "1-2-3-4") = 1
    ∧ emptyRedis.counts (redisKeyFor "processing" "1-2-3-4") = 0
    ∧ (checkRedisRateLimit defaultEnv 0
        (redisBurst defaultEnv "processing" "1.2.3.4" emptyRedis
          (List.replicate 10 0)).2
        "1-2-3-4" "processing").1.allowed = false := by decide

/-- C9: under the JS event loop the whole synchronous read-modify-write of
`checkInMemoryRateLimit` is one atomic step, so a concurrent execution of `n`
same-identity requests is some ordering of `n` whole calls; every such
ordering yields the serial stored count `n` (below the limit no increment is
lost), and any two interleavings of the same number of requests produce
identical stores. -/
theorem concurrent_increments_not_lost :
    ∀ (env : Env) (ns ip : String) (now : Int) (m : MemMap)
      (schedule : List Nat),
    m (limiterKeyMem ns ip) = none →
    1 ≤ schedule.length → (schedule.length : Int) ≤ maxRequestsFor env ns →
    interleavedMemRun env ns ip now m schedule (limiterKeyMem ns ip)
        = some ⟨(schedule.length : Int), now + RATE_LIMIT_WINDOW⟩
    ∧ ∀ schedule2 : List Nat, schedule2.length = schedule.length →
        ∀ k, interleavedMemRun env ns ip now m schedule2 k
          = interleavedMemRun env ns ip now m schedule k := by
  intro env ns ip now m sched hm hlen hL
  constructor
  · unfold interleavedMemRun
    cases sched with
    | nil => simp at hlen
    | cons s rest =>
      show (memBurst env ns ip m (now :: rest.map (fun _ => now))).2
          (limiterKeyMem ns ip) = _
      have hfresh := memBurst_fresh env ns ip m now (rest.map (fun _ => now))
        (Or.inl hm)
        (fun t ht => by
          rcases List.mem_map.mp ht with ⟨x, _, hx⟩
          rw [← hx]
          have hW : (0 : Int) < RATE_LIMIT_WINDOW := by norm_num [RATE_LIMIT_WINDOW]
          omega)
        (by
          simp only [List.length_cons] at hL
          push_cast at hL ⊢
          omega)
      rw [hfresh.2]
      simp only [List.length_map, List.length_cons] at hL ⊢
      simp only [Option.some.injEq, Entry.mk.injEq]
      push_cast at hL ⊢
      exact ⟨by omega, trivial⟩
  · intro sched2 hlen2 k
    unfold interleavedMemRun
    have hmaps : sched2.map (fun _ : Nat => now) = sched.map (fun _ : Nat => now) := by
      rw [List.map_const', List.map_const', hlen2]
    rw [hmaps]

/-- C9 witness: three concurrent requests in two different orders. -/
theorem concurrent_increments_not_lost_witness :
    interleavedMemRun defaultEnv "processing" "1.2.3.4" 0 emptyMem [0, 1, 2]
        (limiterKeyMem "processing" "1.2.3.4")
      = some ⟨3, 0 + RATE_LIMIT_WINDOW⟩
    ∧ interleavedMemRun defaultEnv "processing" "1.2.3.4" 0 emptyMem [9, 9, 9]
        (limiterKeyMem "processing" "1.2.3.4")
      = interleavedMemRun defaultEnv "processing" "1.2.3.4" 0 emptyMem [0, 1, 2]
        (limiterKeyMem "processing" "1.2.3.4") := by
  have h := concurrent_increments_not_lost defaultEnv "processing" "1.2.3.4" 0
    emptyMem [0, 1, 2] rfl (by decide) (by decide)
  exact ⟨h.1, h.2 [9, 9, 9] rfl _⟩

/-- C4: if identity extraction throws, or the backend check throws, the
middleware's `catch` forwards the request downstream with only the limit
header set; a 429 can arise only from a successfully computed denial, never
from the internal-error path. -/
theorem gate_fails_open :
    ∀ (env : Env) (lt : String) (identify : Except String String)
      (check : String → Except String RateLimitResult),
    (∀ e, identify = .error e →
      runMiddleware env lt identify check
        = .nextCalled ⟨some (maxRequestsFor env lt), none, none, none⟩)
    ∧ (∀ ip e, identify = .ok ip → check ip = .error e →
      runMiddleware env lt identify check
        = .nextCalled ⟨some (maxRequestsFor env lt), none, none, none⟩)
    ∧ (∀ hdrs b, runMiddleware env lt identify check = .status429 hdrs b →
        ∃ ip r, identify = .ok ip ∧ check ip = .ok r ∧ r.allowed = false) := by
  intro env lt identify check
  refine ⟨?_, ?_, ?_⟩
  · intro e he
    subst he
    rfl
  · intro ip e hi hc
    subst hi
    show (match check ip with
      | .error _ => GateResponse.nextCalled
          ⟨some (maxRequestsFor env lt), none, none, none⟩
      | .ok r => respondWith (maxRequestsFor env lt) r)
      = .nextCalled ⟨some (maxRequestsFor env lt), none, none, none⟩
    rw [hc]
  · intro hdrs b h429
    cases identify with
    | error e =>
      have hr : runMiddleware env lt (.error e) check
          = .nextCalled ⟨some (maxRequestsFor env lt), none, none, none⟩ := rfl
      rw [hr] at h429
      exact absurd h429 (by simp)
    | ok ip =>
      cases hc : check ip with
      | error e =>
        have hr : runMiddleware env lt (.ok ip) check
            = .nextCalled ⟨some (maxRequestsFor env lt), none, none, none⟩ := by
          show (match check ip with
            | .error _ => GateResponse.nextCalled
                ⟨some (maxRequestsFor env lt), none, none, none⟩
            | .ok r => respondWith (maxRequestsFor env lt) r) = _
          rw [hc]
        rw [hr] at h429
        exact absurd h429 (by simp)
      | ok r =>
        refine ⟨ip, r, rfl, hc, ?_⟩
        by_cases hall : r.allowed = true
        · have hr : runMiddleware env lt (.ok ip) check
              = .nextCalled ⟨some (maxRequestsFor env lt),
                  some (max 0 r.remaining), some (Int.fdiv r.resetTime 1000), none⟩ := by
            show (match check ip with
              | .error _ => GateResponse.nextCalled
                  ⟨some (maxRequestsFor env lt), none, none, none⟩
              | .ok r => respondWith (maxRequestsFor env lt) r) = _
            rw [hc]
            show respondWith (maxRequestsFor env lt) r
              = .nextCalled ⟨some (maxRequestsFor env lt),
                  some (max 0 r.remaining), some (Int.fdiv r.resetTime 1000), none⟩
            unfold respondWith
            rw [if_pos hall]
          rw [hr] at h429
          exact absurd h429 (by simp)
        · simpa using hall

/-- C4 witness: the fail-open theorem at a concrete throwing identity step
and at a concrete throwing lookup step. -/
theorem gate_fails_open_witness :
    runMiddleware defaultEnv "processing" (.error "boom")
        (fun _ => .ok ⟨true, 9, 0, none⟩)
      = .nextCalled ⟨some (maxRequestsFor defaultEnv "processing"), none, none, none⟩
    ∧ runMiddleware defaultEnv "processing" (.ok "1.2.3.4")
        (fun _ => .error "redis down")
      = .nextCalled ⟨some (maxRequestsFor defaultEnv "processing"), none, none, none⟩ := by
  have h := gate_fails_open defaultEnv "processing" (.error "boom")
    (fun _ => .ok ⟨true, 9, 0, none⟩)
  have h2 := gate_fails_open defaultEnv "processing" (.ok "1.2.3.4")
    (fun _ => .error "redis down")
  exact ⟨h.1 "boom" rfl, h2.2.1 "1.2.3.4" "redis down" rfl rfl⟩

/-- C10: `getRateLimitStatus` still reads the removed constant
`RATE_LIMIT_MAX_REQUESTS`, so it can never return a status object carrying
the limit: in Redis mode its `try/catch` converts the `ReferenceError` (or a
`get` failure) into an `{error}` object, and in in-memory mode the
`ReferenceError` escapes to the caller. -/
theorem getRateLimitStatus_broken :
    ∀ (u c : Bool) (g : String → Except String (Option Int)) (m : MemMap)
      (ip : String),
    ((u && c) = true →
      ∃ msg, getRateLimitStatus u c g m ip = .ok (.errorObj msg))
    ∧ ((u && c) = false →
      getRateLimitStatus u c g m ip
        = .error "RATE_LIMIT_MAX_REQUESTS is not defined")
    ∧ (∀ a b l, getRateLimitStatus u c g m ip ≠ .ok (.redisStatus a b l))
    ∧ (∀ a b l r, getRateLimitStatus u c g m ip ≠ .ok (.memoryStatus a b l r)) := by
  intro u c g m ip
  by_cases h : (u && c) = true
  · have hform : ∃ msg, getRateLimitStatus u c g m ip = .ok (.errorObj msg) := by
      unfold getRateLimitStatus
      rw [if_pos h]
      cases hg : g ("ratelimit:" ++ sanitizeIP ip) with
      | error msg => exact ⟨msg, rfl⟩
      | ok raw => exact ⟨"RATE_LIMIT_MAX_REQUESTS is not defined", rfl⟩
    obtain ⟨msg, hmsg⟩ := hform
    refine ⟨fun _ => ⟨msg, hmsg⟩, fun hff => absurd h (by rw [hff]; simp), ?_, ?_⟩
    · intro a b l
      rw [hmsg]
      simp
    · intro a b l r
      rw [hmsg]
      simp
  · have hmem : getRateLimitStatus u c g m ip
        = .error "RATE_LIMIT_MAX_REQUESTS is not defined" := by
      unfold getRateLimitStatus
      rw [if_neg h]
      rfl
    refine ⟨fun htt => absurd htt h, fun _ => hmem, ?_, ?_⟩
    · intro a b l
      rw [hmem]
      simp
    · intro a b l r
      rw [hmem]
      simp

/-- C10 witness: the status function at a concrete Redis-mode state (error
object returned) and a concrete in-memory state (the error escapes). -/
theorem getRateLimitStatus_broken_witness :
    (∃ msg, getRateLimitStatus true true (fun _ => .ok (some 3)) emptyMem
        "1.2.3.4" = .ok (.errorObj msg))
    ∧ getRateLimitStatus false false (fun _ => .ok (some 3)) emptyMem "1.2.3.4"
      = .error "RATE_LIMIT_MAX_REQUESTS is not defined" := by
  have h := getRateLimitStatus_broken true true (fun _ => .ok (some 3))
    emptyMem "1.2.3.4"
  have h2 := getRateLimitStatus_broken false false (fun _ => .ok (some 3))
    emptyMem "1.2.3.4"
  exact ⟨h.1 rfl, h2.2.1 rfl⟩
end SplitStream
